import Mathlib

/-
Verification development for the local-files MCP server (src/mcp_server.py).

The Python code is shallowly embedded as executable Lean definitions:
  * Python strings are modelled as lists of characters (abbrev Str), so that
    prefix / split / join operations are plain list functions amenable to proof.
  * pathlib paths are modelled lexically, as the list of path components that
    pathlib's parser produces (empty components and single dots dropped, double
    dots kept); the operating system's resolution of double-dot components when
    a path is actually opened or stat-ed is modelled by the function resolve.
  * the filesystem is a finite list of entries (directories and regular files
    with byte contents and a modification time); stat / exists / is_file / open
    consult it after resolving the path.
  * Python exceptions are modelled with Except: a raised exception is an
    Except.error carrying the exception message.
  * json.loads / json.dumps and the stdio line transport are external to the
    repository; run_stdio therefore consumes a list of parse results (none for
    a JSONDecodeError) and produces the list of response envelopes it prints.
-/

set_option maxRecDepth 4000

namespace MLF

/-- Python strings are modelled as lists of characters. -/
abbrev Str := List Char

/-- Conversion from a Lean string literal to the character-list model. -/
def lit (s : String) : Str := s.data

/-- Splitting a character list at every slash, keeping empty segments, as the
pathlib parser does before it filters the segments. -/
def splitSlash : List Char → List Str
  | [] => [[]]
  | c :: rest =>
    if c = '/' then [] :: splitSlash rest
    else
      match splitSlash rest with
      | [] => [[c]]
      | s :: tail => (c :: s) :: tail

/-- Joining path components with slash separators (no leading slash). -/
def joinSlash : List Str → Str
  | [] => []
  | [c] => c
  | c :: d :: rest => c ++ '/' :: joinSlash (d :: rest)

/-- A lexical pathlib path: an absoluteness flag plus the parsed components.
Models PurePosixPath: the parser drops empty segments and single dots and
keeps double dots. -/
structure PyPath where
  absolute : Bool
  comps : List Str
deriving DecidableEq

/-- Model of the pathlib constructor Path(s) applied to a string. -/
def parsePath (s : Str) : PyPath :=
  PyPath.mk
    (match s with
     | [] => false
     | c :: _ => c = '/')
    ((splitSlash s).filter (fun t => decide (t ≠ [] ∧ t ≠ lit ".")))

/-- Model of str(p) for an absolute path given by its components. -/
def pathStr (p : List Str) : Str := '/' :: joinSlash p

/-- Model of str(p) for a relative path given by its components
(str of the empty relative path is a single dot). -/
def relStr (rel : List Str) : Str :=
  match rel with
  | [] => ['.']
  | _ => joinSlash rel

/-- Model of Path.name: the final component, empty for the root. -/
def lastComp (p : List Str) : Str := p.getLastD []

/-- Model of PurePath.relative_to (source line 188): a purely lexical
computation that succeeds exactly when the other path's components are a
prefix (and the anchors agree), raising ValueError otherwise; the result may
retain double-dot components. -/
def relative_toP (a b : PyPath) : Option (List Str) :=
  if a.absolute = b.absolute ∧ b.comps <+: a.comps then
    some (a.comps.drop b.comps.length)
  else none

/-- Component-list version of relative_to for two absolute paths, used by
get_file_info (source line 88). -/
def relComps (a b : List Str) : Option (List Str) :=
  if b <+: a then some (a.drop b.length) else none

/-- Model of Path.suffix on the final component: the dotted extension when the
name contains a dot that is neither its first nor its last character,
otherwise empty. -/
def pySuffix (n : Str) : Str :=
  let r := n.reverse
  let afterRev := r.takeWhile (fun c => c ≠ '.')
  if afterRev.length < r.length ∧ 0 < afterRev.length ∧ afterRev.length < r.length - 1
  then '.' :: afterRev.reverse
  else []

/-- Model of str.lower restricted to the ASCII extensions that occur here. -/
def lowerStr (s : Str) : Str := s.map Char.toLower

/-- Fuel-driven glob matching; the fuel is only a termination device, the
match itself follows fnmatch on POSIX for patterns built from literal
characters and the star wildcard (the only constructs in ignored_patterns):
a star matches any sequence of characters including slashes. -/
def globMatchF : Nat → Str → Str → Bool
  | 0, _, _ => false
  | fuel + 1, p, s =>
    match p with
    | [] => s.isEmpty
    | c :: ps =>
      if c = '*' then
        globMatchF fuel ps s ||
          (match s with
           | [] => false
           | _ :: ss => globMatchF fuel (c :: ps) ss)
      else
        match s with
        | [] => false
        | d :: ss => c = d && globMatchF fuel ps ss

/-- Model of fnmatch.fnmatch on POSIX for the patterns in ignored_patterns. -/
def globMatch (p s : Str) : Bool := globMatchF (p.length + s.length + 1) p s

/-- Operating-system resolution of double-dot (and single-dot) components when
a path is actually touched; the parent of the root is the root itself. -/
def resolve (p : List Str) : List Str :=
  p.foldl
    (fun acc c =>
      if c = lit ".." then acc.dropLast
      else if c = lit "." then acc
      else acc ++ [c])
    []

/-- A path component is good when it is nonempty, not a dot form, and has no
slash: the shape every component of a really-existing normalized path has. -/
def goodCompB (c : Str) : Bool :=
  decide (c ≠ [] ∧ c ≠ lit "." ∧ c ≠ lit ".." ∧ ('/' : Char) ∉ c)

/-- A regular file's contents and stat data. -/
structure FileData where
  bytes : List Nat
  mtime : Nat
deriving DecidableEq

/-- One filesystem entry: a normalized absolute path (component list) that is
either a directory (data none) or a regular file. -/
structure FSEntry where
  path : List Str
  data : Option FileData
deriving DecidableEq

/-- The filesystem: a finite list of entries; the list order is the traversal
order that Path.rglob enumerates. -/
structure FS where
  entries : List FSEntry
deriving DecidableEq

/-- Well-formedness of the modelled filesystem: every stored path is
normalized (good components) and paths are not duplicated. -/
def fsWF (fs : FS) : Bool :=
  fs.entries.all (fun e => e.path.all goodCompB) &&
    decide ((fs.entries.map (fun e => e.path)).Nodup)

/-- Lookup of the entry a path denotes, after OS resolution. -/
def fsFind (fs : FS) (p : List Str) : Option FSEntry :=
  fs.entries.find? (fun e => decide (e.path = resolve p))

/-- Model of Path.stat().st_size and st_mtime for a regular file (the callers
in the source only stat paths they have already checked to be regular files). -/
def fsStat (fs : FS) (p : List Str) : Option FileData :=
  (fsFind fs p).bind (fun e => e.data)

/-- Model of Path.is_file(). -/
def fsIsFile (fs : FS) (p : List Str) : Bool := (fsStat fs p).isSome

/-- Model of Path.exists(). -/
def fsExists (fs : FS) (p : List Str) : Bool := (fsFind fs p).isSome

/-- Model of root.rglob applied to the star pattern: every entry strictly
below the root, in traversal order (source line 103). -/
def rglob (fs : FS) (root : List Str) : List FSEntry :=
  fs.entries.filter (fun e => decide (root <+: e.path) && decide (e.path ≠ root))

/-- JSON values; object fields keep their textual order. -/
inductive Json where
  | null : Json
  | bool : Bool → Json
  | num : Int → Json
  | str : Str → Json
  | arr : List Json → Json
  | obj : List (Str × Json) → Json

/-- Is the JSON value an object (a Python dict)? -/
def jsonIsObj : Json → Bool
  | Json.obj _ => true
  | _ => false

/-- Lookup of a key in an object's field list, Python dict.get default None. -/
def jLookup (fields : List (Str × Json)) (k : Str) : Json :=
  match fields.find? (fun kv => decide (kv.fst = k)) with
  | some kv => kv.snd
  | none => Json.null

/-- Lookup with an explicit default, Python dict.get with a second argument. -/
def jLookupD (fields : List (Str × Json)) (k : Str) (d : Json) : Json :=
  match fields.find? (fun kv => decide (kv.fst = k)) with
  | some kv => kv.snd
  | none => d

/-- Python type name of a JSON value, used in AttributeError messages. -/
def pyTypeName : Json → Str
  | Json.null => lit "NoneType"
  | Json.bool _ => lit "bool"
  | Json.num _ => lit "int"
  | Json.str _ => lit "str"
  | Json.arr _ => lit "list"
  | Json.obj _ => lit "dict"

/-- The AttributeError message raised when .get is called on a non-dict. -/
def attrMsg (j : Json) : Str :=
  pyTypeName j ++ lit " object has no attribute get"

/-- Model of request.get(k): raises AttributeError on a non-dict, returns the
value or None on a dict. -/
def pyGet (j : Json) (k : Str) : Except Str Json :=
  match j with
  | Json.obj fields => Except.ok (jLookup fields k)
  | _ => Except.error (attrMsg j)

/-- Model of request.get(k, d) with a default. -/
def pyGetD (j : Json) (k : Str) (d : Json) : Except Str Json :=
  match j with
  | Json.obj fields => Except.ok (jLookupD fields k d)
  | _ => Except.error (attrMsg j)

/-- Quoted form of a string, the quote written via its character code. -/
def quoteStr (s : Str) : Str := Char.ofNat 39 :: s ++ [Char.ofNat 39]

mutual

/-- Model of Python repr for JSON-shaped values, used through pyStr in error
message interpolation. -/
def pyRepr : Json → Str
  | Json.null => lit "None"
  | Json.bool true => lit "True"
  | Json.bool false => lit "False"
  | Json.num n => (toString n).data
  | Json.str s => quoteStr s
  | Json.arr xs => '[' :: pyReprList xs ++ [']']
  | Json.obj kvs => Char.ofNat 123 :: pyReprObj kvs ++ [Char.ofNat 125]

/-- Comma-separated reprs of a list of values. -/
def pyReprList : List Json → Str
  | [] => []
  | [x] => pyRepr x
  | x :: y :: rest => pyRepr x ++ lit ", " ++ pyReprList (y :: rest)

/-- Comma-separated reprs of an object's fields. -/
def pyReprObj : List (Str × Json) → Str
  | [] => []
  | [kv] => quoteStr kv.fst ++ lit ": " ++ pyRepr kv.snd
  | kv :: kv2 :: rest =>
      quoteStr kv.fst ++ lit ": " ++ pyRepr kv.snd ++ lit ", " ++
        pyReprObj (kv2 :: rest)

end

/-- Model of Python str() as used in f-string interpolation. -/
def pyStr : Json → Str
  | Json.str s => s
  | j => pyRepr j

/-- Decimal rendering of a natural number as a character list. -/
def natToStr (n : Nat) : Str := (Nat.repr n).data

/-- The fixed ignore list, source lines 24 to 30. -/
def ignored_patterns : List Str :=
  [ lit "*.pyc", lit "__pycache__", lit ".git", lit ".gitignore",
    lit "node_modules", lit ".vscode", lit ".idea", lit "*.log",
    lit "*.tmp", lit ".DS_Store", lit "venv", lit ".env", lit "*.so",
    lit "*.dll", lit "*.exe", lit "*.bin", lit "*.zip", lit "*.tar.gz",
    lit "*.jpg", lit "*.jpeg", lit "*.png", lit "*.gif", lit "*.bmp",
    lit "*.ico", lit "*.svg", lit "*.mp3", lit "*.mp4", lit "*.avi",
    lit "*.mov", lit "*.wav", lit "*.pdf" ]

/-- The fixed extension allow-list, source lines 31 to 38. -/
def allowed_extensions : List Str :=
  [ lit ".py", lit ".js", lit ".ts", lit ".jsx", lit ".tsx", lit ".html",
    lit ".css", lit ".scss", lit ".json", lit ".xml", lit ".yaml",
    lit ".yml", lit ".md", lit ".txt", lit ".ini", lit ".cfg", lit ".conf",
    lit ".sh", lit ".bat", lit ".ps1", lit ".sql", lit ".r", lit ".cpp",
    lit ".c", lit ".h", lit ".hpp", lit ".java", lit ".go", lit ".rs",
    lit ".php", lit ".rb", lit ".swift", lit ".kt", lit ".scala",
    lit ".clj", lit ".hs", lit ".elm", lit ".dart", lit ".vue",
    lit ".svelte", lit ".astro", lit ".dockerfile", lit ".makefile",
    lit ".toml" ]

/-- The per-process server configuration: root path components, the size
ceiling, and the mimetypes.guess_type lookup, which is standard-library and
environment data external to the repository and therefore a parameter. -/
structure Config where
  root : List Str
  max_file_size : Nat
  guessMime : Str → Option Str

/-- Model of MCPServer.should_ignore_file, source lines 51 to 57: a glob
match of any pattern against the full path string or against the base name. -/
def should_ignore_file (p : List Str) : Bool :=
  ignored_patterns.any
    (fun pat => globMatch pat (pathStr p) || globMatch pat (lastComp p))

/-- The mimetypes branch of is_text_file, source lines 65 to 67: a guessed
type that begins with text followed by a slash. -/
def mimeIsText (g : Str → Option Str) (p : List Str) : Bool :=
  match g (pathStr p) with
  | some m => (lit "text/").isPrefixOf m
  | none => false

/-- Model of MCPServer.is_text_file, source lines 59 to 69: the lowercased
suffix in the allow-list, or else the MIME guess beginning with text. -/
def is_text_file (g : Str → Option Str) (p : List Str) : Bool :=
  if allowed_extensions.contains (lowerStr (pySuffix (lastComp p))) then true
  else mimeIsText g p

/-- Is a byte a UTF-8 continuation byte? -/
def isCont (b : Nat) : Bool := 128 ≤ b && b ≤ 191

/-- Lower bound of the second byte of a three-byte sequence (UTF-8 excludes
overlong encodings and surrogates). -/
def cont3Lo (b : Nat) : Nat := if b = 224 then 160 else 128

/-- Upper bound of the second byte of a three-byte sequence. -/
def cont3Hi (b : Nat) : Nat := if b = 237 then 159 else 191

/-- Lower bound of the second byte of a four-byte sequence. -/
def cont4Lo (b : Nat) : Nat := if b = 240 then 144 else 128

/-- Upper bound of the second byte of a four-byte sequence. -/
def cont4Hi (b : Nat) : Nat := if b = 244 then 143 else 191

/-- Fuel-driven body of the UTF-8 decoder with the ignore error handler; the
fuel is only a termination device and every step consumes at least one input
byte, so the fuel supplied by utf8DecodeIgnore never runs out. -/
def utf8DecodeIgnoreF : Nat → List Nat → List Nat
  | 0, _ => []
  | fuel + 1, l =>
    match l with
    | [] => []
    | b :: rest =>
      if b < 128 then b :: utf8DecodeIgnoreF fuel rest
      else if 194 ≤ b && b ≤ 223 then
        match rest with
        | [] => []
        | b2 :: rest2 =>
          if isCont b2 then
            ((b - 192) * 64 + (b2 - 128)) :: utf8DecodeIgnoreF fuel rest2
          else utf8DecodeIgnoreF fuel rest
      else if 224 ≤ b && b ≤ 239 then
        match rest with
        | [] => []
        | b2 :: rest2 =>
          if cont3Lo b ≤ b2 && b2 ≤ cont3Hi b then
            match rest2 with
            | [] => []
            | b3 :: rest3 =>
              if isCont b3 then
                ((b - 224) * 4096 + (b2 - 128) * 64 + (b3 - 128)) ::
                  utf8DecodeIgnoreF fuel rest3
              else utf8DecodeIgnoreF fuel rest2
          else utf8DecodeIgnoreF fuel rest
      else if 240 ≤ b && b ≤ 244 then
        match rest with
        | [] => []
        | b2 :: rest2 =>
          if cont4Lo b ≤ b2 && b2 ≤ cont4Hi b then
            match rest2 with
            | [] => []
            | b3 :: rest3 =>
              if isCont b3 then
                match rest3 with
                | [] => []
                | b4 :: rest4 =>
                  if isCont b4 then
                    ((b - 240) * 262144 + (b2 - 128) * 4096 +
                        (b3 - 128) * 64 + (b4 - 128)) ::
                      utf8DecodeIgnoreF fuel rest4
                  else utf8DecodeIgnoreF fuel rest3
              else utf8DecodeIgnoreF fuel rest2
          else utf8DecodeIgnoreF fuel rest
      else utf8DecodeIgnoreF fuel rest

/-- Model of bytes.decode with utf-8 and the ignore error handler, as invoked
by the open call on source line 77: valid sequences decode to their code
points and the bytes of an invalid or truncated sequence are skipped without
producing any output character, the decoder resuming at the next byte after
the longest valid prefix of the failed sequence. -/
def utf8DecodeIgnore (l : List Nat) : List Nat :=
  utf8DecodeIgnoreF (l.length + 1) l

/-- Model of the universal-newline translation that Python text mode applies
to decoded input when open is called without a newline argument, as on source
line 77: a carriage return followed by a line feed becomes one line feed, and
a lone carriage return becomes a line feed. -/
def univNewlines : List Nat → List Nat
  | [] => []
  | [c] => if c = 13 then [10] else [c]
  | c :: c2 :: rest =>
    if c = 13 then
      if c2 = 10 then 10 :: univNewlines rest
      else 10 :: univNewlines (c2 :: rest)
    else c :: univNewlines (c2 :: rest)

/-- Model of MCPServer.read_file_content, source lines 71 to 81: an error
string if stat raises, the size placeholder if the file exceeds the ceiling,
otherwise the bytes decoded with the ignore handler and passed through the
universal-newline translation of the text-mode open; the function always
returns a string, never raising. -/
def read_file_content (cfg : Config) (fs : FS) (p : List Str) : Str :=
  match fsStat fs p with
  | none => lit "[Error reading file: stat failed]"
  | some d =>
    if d.bytes.length > cfg.max_file_size then
      lit "[File too large: " ++ natToStr d.bytes.length ++ lit " bytes]"
    else (univNewlines (utf8DecodeIgnore d.bytes)).map Char.ofNat

/-- The descriptor built by get_file_info, source lines 86 to 94; the
modified field keeps the raw stat timestamp, its datetime ISO rendering being
standard-library formatting outside the repository. -/
structure FileInfo where
  path : Str
  absolute_path : Str
  size : Nat
  modified : Nat
  extension : Str
  is_text : Bool
deriving DecidableEq

/-- Model of MCPServer.get_file_info, source lines 83 to 97: none when stat
or the lexical relative_to computation raises, otherwise the descriptor. -/
def get_file_info (cfg : Config) (fs : FS) (p : List Str) : Option FileInfo :=
  match fsStat fs p with
  | none => none
  | some d =>
    match relComps p cfg.root with
    | none => none
    | some rel =>
      some (FileInfo.mk (relStr rel) (pathStr p) d.bytes.length d.mtime
        (pySuffix (lastComp p)) (is_text_file cfg.guessMime p))

/-- The loop body of scan_directory, source lines 103 to 111: stop once the
accumulated list reaches max_files, keep regular files that are neither
ignored nor non-text and whose get_file_info succeeds. -/
def scanFrom (cfg : Config) (fs : FS) :
    List FSEntry → Nat → List FileInfo → List FileInfo
  | [], _, acc => acc
  | e :: rest, maxF, acc =>
    if maxF ≤ acc.length then acc
    else if e.data.isSome && !should_ignore_file e.path &&
        is_text_file cfg.guessMime e.path then
      match get_file_info cfg fs e.path with
      | some fi => scanFrom cfg fs rest maxF (acc ++ [fi])
      | none => scanFrom cfg fs rest maxF acc
    else scanFrom cfg fs rest maxF acc

/-- Model of MCPServer.scan_directory, source lines 99 to 115. -/
def scan_directory (cfg : Config) (fs : FS) (maxF : Nat) : List FileInfo :=
  scanFrom cfg fs (rglob fs cfg.root) maxF []

/-- A descriptor with its content field populated, the dict that
get_file_content returns. -/
structure ContentInfo where
  info : FileInfo
  content : Str
deriving DecidableEq

/-- Model of MCPServer.get_file_content, source lines 117 to 136: join the
relative path onto the root, fail to none when the path does not exist or is
not a regular file or is ignored or is not text or get_file_info fails,
otherwise return the descriptor with content. -/
def get_file_content (cfg : Config) (fs : FS) (rel : List Str) :
    Option ContentInfo :=
  if !fsExists fs (cfg.root ++ rel) || !fsIsFile fs (cfg.root ++ rel) then none
  else if should_ignore_file (cfg.root ++ rel) ||
      !is_text_file cfg.guessMime (cfg.root ++ rel) then none
  else
    match get_file_info cfg fs (cfg.root ++ rel) with
    | none => none
    | some fi =>
      some (ContentInfo.mk fi (read_file_content cfg fs (cfg.root ++ rel)))

/-- A JSON-RPC error object. -/
structure ErrObj where
  code : Int
  message : Str

/-- A response envelope: the echoed id and at most one of result and error. -/
structure Response where
  id : Json
  result : Option Json
  error : Option ErrObj

/-- The initialize result object, source lines 146 to 163. -/
def initResult : Json :=
  Json.obj
    [ (lit "protocolVersion", Json.str (lit "2024-11-05")),
      (lit "capabilities", Json.obj
        [ (lit "resources", Json.obj
            [ (lit "subscribe", Json.bool false),
              (lit "listChanged", Json.bool false) ]),
          (lit "tools", Json.obj []),
          (lit "prompts", Json.obj []) ]),
      (lit "serverInfo", Json.obj
        [ (lit "name", Json.str (lit "local-files-mcp-server")),
          (lit "version", Json.str (lit "1.0.0")) ]) ]

/-- One resources/list entry built from a descriptor, source lines 169 to
175. -/
def resourceEntry (fi : FileInfo) : Json :=
  Json.obj
    [ (lit "uri", Json.str (lit "file://" ++ fi.absolute_path)),
      (lit "name", Json.str fi.path),
      (lit "description", Json.str
        (lit "Local file: " ++ fi.path ++ lit " (" ++ natToStr fi.size ++
          lit " bytes)")),
      (lit "mimeType", Json.str (lit "text/plain")) ]

/-- The ValueError message raised by relative_to when the other path is not a
lexical prefix, quotes omitted. -/
def valueErrorMsg (a : PyPath) (root : List Str) : Str :=
  (if a.absolute then pathStr a.comps else relStr a.comps) ++
    lit " is not in the subpath of " ++ pathStr root ++
    lit " OR one path is relative and the other is absolute."

/-- The resources/read branch, source lines 184 to 209, given the params
value: fetch uri with empty-string default (raising on non-dict params), test
the file scheme prefix (raising on a non-string uri), lexically relativize
the remainder against the root (the ValueError propagating to the caller),
and answer with the content or the not-found error envelope. -/
def readBranch (cfg : Config) (fs : FS) (params : Json) (rid : Json) :
    Except Str Response :=
  match pyGetD params (lit "uri") (Json.str []) with
  | Except.error e => Except.error e
  | Except.ok uriVal =>
    match uriVal with
    | Json.str u =>
      if (lit "file://").isPrefixOf u then
        let fp := parsePath (u.drop 7)
        match relative_toP fp (PyPath.mk true cfg.root) with
        | none => Except.error (valueErrorMsg fp cfg.root)
        | some rel =>
          match get_file_content cfg fs rel with
          | some fd =>
            Except.ok (Response.mk rid
              (some (Json.obj
                [ (lit "contents", Json.arr
                    [ Json.obj
                        [ (lit "uri", Json.str u),
                          (lit "mimeType", Json.str (lit "text/plain")),
                          (lit "text", Json.str fd.content) ] ]) ]))
              none)
          | none =>
            Except.ok (Response.mk rid none
              (some (ErrObj.mk (-32602) (lit "Resource not found: " ++ u))))
      else
        Except.ok (Response.mk rid none
          (some (ErrObj.mk (-32602) (lit "Resource not found: " ++ u))))
    | _ => Except.error (pyTypeName uriVal ++ lit " object has no attribute startswith")

/-- The method table of handle_request, source lines 145 to 218, after the
three gets have succeeded. -/
def dispatchCore (cfg : Config) (fs : FS) (method params rid : Json) :
    Except Str Response :=
  match method with
  | Json.str m =>
    if m = lit "initialize" then
      Except.ok (Response.mk rid (some initResult) none)
    else if m = lit "resources/list" then
      Except.ok (Response.mk rid
        (some (Json.obj
          [ (lit "resources", Json.arr
              ((scan_directory cfg fs 1000).map resourceEntry)) ]))
        none)
    else if m = lit "resources/read" then
      readBranch cfg fs params rid
    else
      Except.ok (Response.mk rid none
        (some (ErrObj.mk (-32601) (lit "Method not found: " ++ m))))
  | _ =>
    Except.ok (Response.mk rid none
      (some (ErrObj.mk (-32601) (lit "Method not found: " ++ pyStr method))))

/-- The body of the try block of handle_request, source lines 140 to 218:
the three dict gets followed by the method table; a raise anywhere is an
error value. -/
def dispatch (cfg : Config) (fs : FS) (req : Json) : Except Str Response :=
  match pyGet req (lit "method") with
  | Except.error e => Except.error e
  | Except.ok method =>
    match pyGetD req (lit "params") (Json.obj []) with
    | Except.error e => Except.error e
    | Except.ok params =>
      match pyGet req (lit "id") with
      | Except.error e => Except.error e
      | Except.ok rid => dispatchCore cfg fs method params rid

/-- Model of MCPServer.handle_request, source lines 138 to 228: the dispatch
body guarded by the top-level exception handler that answers with the
internal-error envelope, itself re-reading the id and therefore re-raising
on a non-dict request. -/
def handle_request (cfg : Config) (fs : FS) (req : Json) :
    Except Str Response :=
  match dispatch cfg fs req with
  | Except.ok r => Except.ok r
  | Except.error e =>
    match pyGet req (lit "id") with
    | Except.ok i =>
      Except.ok (Response.mk i none
        (some (ErrObj.mk (-32603) (lit "Internal error: " ++ e))))
    | Except.error e2 => Except.error e2

/-- How the stdio loop ended: the input stream closed, or an exception
escaped the per-line handling and was absorbed by the outer handler,
terminating the loop. -/
inductive LoopEnd where
  | streamClosed : LoopEnd
  | serverError : Str → LoopEnd
deriving DecidableEq

/-- Model of MCPServer.run_stdio, source lines 230 to 258, over the sequence
of per-line json.loads outcomes (none models a JSONDecodeError, which is
logged and skipped): the returned list holds the response envelopes printed,
one line each, in order. -/
def run_stdio (cfg : Config) (fs : FS) :
    List (Option Json) → List Response × LoopEnd
  | [] => ([], LoopEnd.streamClosed)
  | none :: rest => run_stdio cfg fs rest
  | some req :: rest =>
    match handle_request cfg fs req with
    | Except.ok resp =>
      let pr := run_stdio cfg fs rest
      (resp :: pr.fst, pr.snd)
    | Except.error e => ([], LoopEnd.serverError e)

/-- The JSON-RPC request object for resources/read on a given uri. -/
def readReq (uri : Str) (idv : Json) : Json :=
  Json.obj
    [ (lit "method", Json.str (lit "resources/read")),
      (lit "params", Json.obj [ (lit "uri", Json.str uri)]),
      (lit "id", idv) ]

/-- The JSON-RPC request object for resources/list. -/
def listReq (idv : Json) : Json :=
  Json.obj
    [ (lit "method", Json.str (lit "resources/list")),
      (lit "id", idv) ]

/-- The result object a successful resources/read answers with, source lines
192 to 201. -/
def readResultJson (uri text : Str) : Json :=
  Json.obj
    [ (lit "contents", Json.arr
        [ Json.obj
            [ (lit "uri", Json.str uri),
              (lit "mimeType", Json.str (lit "text/plain")),
              (lit "text", Json.str text) ] ]) ]

/-- The error code of a returned envelope, none for a success envelope or a
propagated exception. -/
def respErrCode : Except Str Response → Option Int
  | Except.ok r => r.error.map (fun e => e.code)
  | Except.error _ => none

/-- Exactly one of result and error is present in the envelope. -/
def respOneOf (r : Response) : Prop :=
  (r.result.isSome = true ∧ r.error = none) ∨
    (r.result = none ∧ r.error.isSome = true)

/-- Unfolding of goodCompB into its four conjuncts. -/
lemma goodCompB_spec {c : Str} (h : goodCompB c = true) :
    c ≠ [] ∧ c ≠ lit "." ∧ c ≠ lit ".." ∧ ('/' : Char) ∉ c :=
  of_decide_eq_true h

/-- The fold inside resolve only appends when no component is a dot form. -/
lemma resolve_foldl (p : List Str) : ∀ acc : List Str,
    (∀ c ∈ p, goodCompB c = true) →
    List.foldl
      (fun acc c =>
        if c = lit ".." then acc.dropLast
        else if c = lit "." then acc
        else acc ++ [c])
      acc p = acc ++ p := by
  induction p with
  | nil => intro acc _; simp
  | cons c rest ih =>
    intro acc h
    obtain ⟨-, h2, h3, -⟩ := goodCompB_spec (h c (List.mem_cons_self c rest))
    rw [List.foldl_cons, if_neg h3, if_neg h2,
      ih (acc ++ [c]) (fun x hx => h x (List.mem_cons_of_mem c hx))]
    simp

/-- Resolution is the identity on a normalized path. -/
lemma resolve_eq_self {p : List Str} (h : ∀ c ∈ p, goodCompB c = true) :
    resolve p = p := by
  unfold resolve
  rw [resolve_foldl p [] h]
  simp

/-- fsWF gives good components for every stored path. -/
lemma fsWF_good {fs : FS} (h : fsWF fs = true) {e : FSEntry}
    (he : e ∈ fs.entries) : ∀ c ∈ e.path, goodCompB c = true := by
  unfold fsWF at h
  rw [Bool.and_eq_true] at h
  exact fun c hc => List.all_eq_true.mp (List.all_eq_true.mp h.1 e he) c hc

/-- fsWF gives distinct stored paths. -/
lemma fsWF_nodup {fs : FS} (h : fsWF fs = true) :
    (fs.entries.map (fun e => e.path)).Nodup := by
  unfold fsWF at h
  rw [Bool.and_eq_true] at h
  exact of_decide_eq_true h.2

/-- find? on the entry list locates a member entry when paths are distinct. -/
lemma find?_path_eq {l : List FSEntry} {e : FSEntry}
    (hn : (l.map (fun x => x.path)).Nodup) (he : e ∈ l) :
    l.find? (fun x => decide (x.path = e.path)) = some e := by
  induction l with
  | nil => cases he
  | cons a t ih =>
    rw [List.map_cons, List.nodup_cons] at hn
    rcases List.mem_cons.mp he with rfl | ht
    · simp [List.find?]
    · have hne : ¬a.path = e.path := fun hEq =>
        hn.1 (hEq ▸ List.mem_map_of_mem (fun x => x.path) ht)
      rw [List.find?_cons, decide_eq_false hne]
      exact ih hn.2 ht

/-- On a well-formed filesystem, looking up a member entry's path finds it. -/
lemma fsFind_of_mem {fs : FS} {e : FSEntry} (hwf : fsWF fs = true)
    (he : e ∈ fs.entries) : fsFind fs e.path = some e := by
  unfold fsFind
  rw [resolve_eq_self (fsWF_good hwf he)]
  exact find?_path_eq (fsWF_nodup hwf) he

/-- Stat of a member regular file returns its data. -/
lemma fsStat_of_mem {fs : FS} {e : FSEntry} {d : FileData}
    (hwf : fsWF fs = true) (he : e ∈ fs.entries) (hd : e.data = some d) :
    fsStat fs e.path = some d := by
  unfold fsStat
  rw [fsFind_of_mem hwf he]
  simp [hd]

/-- Splitting after a leading slash peels an empty segment. -/
lemma splitSlash_cons_slash (t : List Char) :
    splitSlash ('/' :: t) = [] :: splitSlash t := by
  simp [splitSlash]

/-- Splitting a slash-free segment glued before a slash peels that segment. -/
lemma splitSlash_append (a : Str) (t : List Char) (h : ('/' : Char) ∉ a) :
    splitSlash (a ++ '/' :: t) = a :: splitSlash t := by
  induction a with
  | nil => simp [splitSlash_cons_slash]
  | cons c a' ih =>
    have hc : c ≠ '/' := fun hEq => h (hEq ▸ List.mem_cons_self c a')
    have ih2 := ih (fun hx => h (List.mem_cons_of_mem c hx))
    rw [List.cons_append]
    show splitSlash (c :: (a' ++ '/' :: t)) = _
    rw [splitSlash, if_neg hc, ih2]

/-- Splitting a slash-free string yields that single segment. -/
lemma splitSlash_no_slash (a : Str) (h : ('/' : Char) ∉ a) :
    splitSlash a = [a] := by
  induction a with
  | nil => rfl
  | cons c a' ih =>
    have hc : c ≠ '/' := fun hEq => h (hEq ▸ List.mem_cons_self c a')
    have ih2 := ih (fun hx => h (List.mem_cons_of_mem c hx))
    rw [splitSlash, if_neg hc, ih2]

/-- Splitting inverts joining for nonempty slash-free component lists. -/
lemma splitSlash_joinSlash : ∀ p : List Str, p ≠ [] →
    (∀ c ∈ p, ('/' : Char) ∉ c) → splitSlash (joinSlash p) = p := by
  intro p
  induction p with
  | nil => intro h; exact absurd rfl h
  | cons a rest ih =>
    intro _ h
    cases rest with
    | nil => exact splitSlash_no_slash a (h a (List.mem_cons_self a []))
    | cons b rest' =>
      show splitSlash (a ++ '/' :: joinSlash (b :: rest')) = a :: b :: rest'
      rw [splitSlash_append a _ (h a (List.mem_cons_self a _))]
      rw [ih (by simp) (fun c hc => h c (List.mem_cons_of_mem a hc))]

/-- Parsing the printed form of a normalized absolute path returns the same
components with the absolute flag set. -/
lemma parsePath_pathStr (p : List Str) (h : ∀ c ∈ p, goodCompB c = true) :
    parsePath (pathStr p) = PyPath.mk true p := by
  have hfilter : (splitSlash (pathStr p)).filter
      (fun t => decide (t ≠ [] ∧ t ≠ lit ".")) = p := by
    cases hp : p with
    | nil => rfl
    | cons a rest =>
      show (splitSlash ('/' :: joinSlash (a :: rest))).filter _ = a :: rest
      rw [splitSlash_cons_slash,
        splitSlash_joinSlash (a :: rest) (by simp)
          (fun c hc => (goodCompB_spec (h c (hp ▸ hc))).2.2.2),
        List.filter_cons_of_neg (by decide)]
      refine List.filter_eq_self.mpr ?_
      intro c hc
      have hg := goodCompB_spec (h c (hp ▸ hc))
      exact decide_eq_true ⟨hg.1, hg.2.1⟩
  unfold parsePath
  rw [hfilter]
  rfl

/-- The decoder is the identity on ASCII byte lists, for sufficient fuel. -/
lemma utf8F_ascii : ∀ (fuel : Nat) (l : List Nat), l.length < fuel →
    (∀ b ∈ l, b < 128) → utf8DecodeIgnoreF fuel l = l := by
  intro fuel
  induction fuel with
  | zero => intro l h _; exact absurd h (Nat.not_lt_zero _)
  | succ f ih =>
    intro l hlen hb
    cases l with
    | nil => rfl
    | cons b rest =>
      have hb0 : b < 128 := hb b (List.mem_cons_self b rest)
      simp only [utf8DecodeIgnoreF, if_pos hb0]
      rw [ih rest (by simpa using Nat.lt_of_succ_lt_succ (by simpa using hlen))
        (fun x hx => hb x (List.mem_cons_of_mem b hx))]

/-- The decoder is the identity on ASCII byte lists. -/
lemma utf8_ascii {l : List Nat} (h : ∀ b ∈ l, b < 128) :
    utf8DecodeIgnore l = l :=
  utf8F_ascii (l.length + 1) l (Nat.lt_succ_self _) h

/-- A byte that can head no UTF-8 sequence is skipped and contributes nothing
to the decoded output. -/
lemma utf8_drop255 (l : List Nat) :
    utf8DecodeIgnore (255 :: l) = utf8DecodeIgnore l := by
  show utf8DecodeIgnoreF ((255 :: l).length + 1) (255 :: l) =
    utf8DecodeIgnoreF (l.length + 1) l
  rw [List.length_cons]
  simp only [utf8DecodeIgnoreF]
  norm_num

/-- The newline translation is the identity on strings holding no carriage
return. -/
lemma univNewlines_no_cr : ∀ l : List Nat, (∀ b ∈ l, b ≠ 13) →
    univNewlines l = l
  | [], _ => rfl
  | [c], h => by
    rw [univNewlines, if_neg (h c (by simp))]
  | c :: c2 :: rest, h => by
    rw [univNewlines, if_neg (h c (by simp)),
      univNewlines_no_cr (c2 :: rest) (fun b hb => h b (List.mem_cons_of_mem c hb))]

/-- The returned list never grows past the cap. -/
lemma scanFrom_length (cfg : Config) (fs : FS) :
    ∀ (es : List FSEntry) (maxF : Nat) (acc : List FileInfo),
    acc.length ≤ maxF → (scanFrom cfg fs es maxF acc).length ≤ maxF := by
  intro es
  induction es with
  | nil => intro maxF acc h; simpa [scanFrom] using h
  | cons e rest ih =>
    intro maxF acc h
    rw [scanFrom]
    by_cases h1 : maxF ≤ acc.length
    · rw [if_pos h1]; exact h
    · rw [if_neg h1]
      have hlt : acc.length < maxF := Nat.lt_of_not_le h1
      by_cases h2 : (e.data.isSome && !should_ignore_file e.path &&
          is_text_file cfg.guessMime e.path) = true
      · rw [if_pos h2]
        cases hgi : get_file_info cfg fs e.path with
        | some fi => exact ih maxF (acc ++ [fi]) (by simp; omega)
        | none => exact ih maxF acc h
      · rw [if_neg h2]; exact ih maxF acc h

/-- Everything the loop returns was in the accumulator or came from a member
entry that passed the regular-file, ignore and text gates. -/
lemma scanFrom_mem (cfg : Config) (fs : FS) :
    ∀ (es : List FSEntry) (maxF : Nat) (acc : List FileInfo) (fi : FileInfo),
    fi ∈ scanFrom cfg fs es maxF acc → fi ∈ acc ∨
      ∃ e, e ∈ es ∧ e.data.isSome = true ∧
        should_ignore_file e.path = false ∧
        is_text_file cfg.guessMime e.path = true ∧
        get_file_info cfg fs e.path = some fi := by
  intro es
  induction es with
  | nil => intro maxF acc fi h; exact Or.inl (by simpa [scanFrom] using h)
  | cons e rest ih =>
    intro maxF acc fi h
    rw [scanFrom] at h
    by_cases h1 : maxF ≤ acc.length
    · rw [if_pos h1] at h; exact Or.inl h
    · rw [if_neg h1] at h
      by_cases h2 : (e.data.isSome && !should_ignore_file e.path &&
          is_text_file cfg.guessMime e.path) = true
      · rw [if_pos h2] at h
        have hb := h2
        rw [Bool.and_eq_true, Bool.and_eq_true, Bool.not_eq_true'] at hb
        cases hgi : get_file_info cfg fs e.path with
        | some fi2 =>
          rw [hgi] at h
          rcases ih maxF (acc ++ [fi2]) fi h with hin | ⟨e2, he2, hp⟩
          · rcases List.mem_append.mp hin with hacc | hfi
            · exact Or.inl hacc
            · have hEq : fi = fi2 := by simpa using hfi
              exact Or.inr ⟨e, List.mem_cons_self e rest, hb.1.1, hb.1.2,
                hb.2, hEq ▸ hgi⟩
          · exact Or.inr ⟨e2, List.mem_cons_of_mem e he2, hp⟩
        | none =>
          rw [hgi] at h
          rcases ih maxF acc fi h with hin | ⟨e2, he2, hp⟩
          · exact Or.inl hin
          · exact Or.inr ⟨e2, List.mem_cons_of_mem e he2, hp⟩
      · rw [if_neg h2] at h
        rcases ih maxF acc fi h with hin | ⟨e2, he2, hp⟩
        · exact Or.inl hin
        · exact Or.inr ⟨e2, List.mem_cons_of_mem e he2, hp⟩

/-- The loop only ever appends to the accumulator. -/
lemma scanFrom_extends (cfg : Config) (fs : FS) :
    ∀ (es : List FSEntry) (maxF : Nat) (acc : List FileInfo),
    acc <+: scanFrom cfg fs es maxF acc := by
  intro es
  induction es with
  | nil => intro maxF acc; simp [scanFrom]
  | cons e rest ih =>
    intro maxF acc
    rw [scanFrom]
    by_cases h1 : maxF ≤ acc.length
    · rw [if_pos h1]
    · rw [if_neg h1]
      by_cases h2 : (e.data.isSome && !should_ignore_file e.path &&
          is_text_file cfg.guessMime e.path) = true
      · rw [if_pos h2]
        cases hgi : get_file_info cfg fs e.path with
        | some fi => exact (List.prefix_append acc [fi]).trans (ih maxF (acc ++ [fi]))
        | none => exact ih maxF acc
      · rw [if_neg h2]; exact ih maxF acc

/-- When the cap is large enough for the whole entry list, every qualifying
entry's descriptor is returned. -/
lemma scanFrom_complete (cfg : Config) (fs : FS) :
    ∀ (es : List FSEntry) (maxF : Nat) (acc : List FileInfo) (e : FSEntry)
      (fi : FileInfo),
    acc.length + es.length ≤ maxF → e ∈ es → e.data.isSome = true →
    should_ignore_file e.path = false →
    is_text_file cfg.guessMime e.path = true →
    get_file_info cfg fs e.path = some fi →
    fi ∈ scanFrom cfg fs es maxF acc := by
  intro es
  induction es with
  | nil =>
    intro maxF acc e fi _ he
    cases he
  | cons a rest ih =>
    intro maxF acc e fi hlen he hd hig htx hgi
    rw [scanFrom]
    have hnb : ¬maxF ≤ acc.length := by simp at hlen; omega
    rw [if_neg hnb]
    rcases List.mem_cons.mp he with rfl | ht
    · rw [if_pos (by rw [hd, hig, htx]; rfl), hgi]
      exact (scanFrom_extends cfg fs rest maxF (acc ++ [fi])).subset (by simp)
    · by_cases h2 : (a.data.isSome && !should_ignore_file a.path &&
          is_text_file cfg.guessMime a.path) = true
      · rw [if_pos h2]
        cases hga : get_file_info cfg fs a.path with
        | some fj =>
          exact ih maxF (acc ++ [fj]) e fi (by simp at hlen ⊢; omega) ht hd hig htx hgi
        | none =>
          exact ih maxF acc e fi (by simp at hlen ⊢; omega) ht hd hig htx hgi
      · rw [if_neg h2]
        exact ih maxF acc e fi (by simp at hlen ⊢; omega) ht hd hig htx hgi

/-- Reading a member regular file under the root that is neither ignored nor
non-text succeeds and returns the descriptor with content. -/
lemma get_file_content_of_entry (cfg : Config) (fs : FS) (e : FSEntry)
    (d : FileData) (hwf : fsWF fs = true) (he : e ∈ fs.entries)
    (hd : e.data = some d) (hpre : cfg.root <+: e.path)
    (hig : should_ignore_file e.path = false)
    (htx : is_text_file cfg.guessMime e.path = true) :
    get_file_content cfg fs (e.path.drop cfg.root.length) =
      some (ContentInfo.mk
        (FileInfo.mk (relStr (e.path.drop cfg.root.length)) (pathStr e.path)
          d.bytes.length d.mtime (pySuffix (lastComp e.path)) true)
        (read_file_content cfg fs e.path)) := by
  have hjoin : cfg.root ++ e.path.drop cfg.root.length = e.path :=
    List.prefix_iff_eq_append.mp hpre
  have hstat : fsStat fs e.path = some d := fsStat_of_mem hwf he hd
  have hfind : fsFind fs e.path = some e := fsFind_of_mem hwf he
  have hex : fsExists fs e.path = true := by
    unfold fsExists; rw [hfind]; rfl
  have hisf : fsIsFile fs e.path = true := by
    unfold fsIsFile; rw [hstat]; rfl
  have hgfi : get_file_info cfg fs e.path = some (FileInfo.mk
      (relStr (e.path.drop cfg.root.length)) (pathStr e.path) d.bytes.length
      d.mtime (pySuffix (lastComp e.path)) true) := by
    unfold get_file_info
    rw [hstat]
    unfold relComps
    rw [if_pos hpre, htx]
  unfold get_file_content
  rw [hjoin, hex, hisf, hig, htx, hgfi]
  rfl

/-- Dispatching a resources/read request reduces to the read branch on its
params object. -/
lemma dispatch_readReq (cfg : Config) (fs : FS) (u : Str) (idv : Json) :
    dispatch cfg fs (readReq u idv) =
      readBranch cfg fs (Json.obj [ (lit "uri", Json.str u)]) idv := rfl

/-- Dispatching a resources/list request returns the mapped scan result. -/
lemma dispatch_listReq (cfg : Config) (fs : FS) (idv : Json) :
    dispatch cfg fs (listReq idv) =
      Except.ok (Response.mk idv
        (some (Json.obj
          [ (lit "resources", Json.arr
              ((scan_directory cfg fs 1000).map resourceEntry)) ]))
        none) := rfl

/-- A successful dispatch passes through handle_request unchanged. -/
lemma handle_request_ok (cfg : Config) (fs : FS) (req : Json) (r : Response)
    (h : dispatch cfg fs req = Except.ok r) :
    handle_request cfg fs req = Except.ok r := by
  unfold handle_request
  rw [h]

/-- Dispatching any object request reduces to the method table applied to the
three lookups. -/
lemma dispatch_obj (cfg : Config) (fs : FS) (fields : List (Str × Json)) :
    dispatch cfg fs (Json.obj fields) =
      dispatchCore cfg fs (jLookup fields (lit "method"))
        (jLookupD fields (lit "params") (Json.obj []))
        (jLookup fields (lit "id")) := rfl

/-- The default get on an object reduces to the field lookup. -/
lemma pyGetD_obj (fields : List (Str × Json)) (k : Str) (d : Json) :
    pyGetD (Json.obj fields) k d = Except.ok (jLookupD fields k d) := rfl

/-- The read branch on a params value whose uri lookup is a string unfolds
into the scheme test, the lexical relativization and the content lookup. -/
lemma readBranch_uriStr (cfg : Config) (fs : FS) (params : Json) (u : Str)
    (idv : Json)
    (hu : pyGetD params (lit "uri") (Json.str []) = Except.ok (Json.str u)) :
    readBranch cfg fs params idv =
      (if (lit "file://").isPrefixOf u then
        match relative_toP (parsePath (u.drop 7)) (PyPath.mk true cfg.root) with
        | none =>
          Except.error (valueErrorMsg (parsePath (u.drop 7)) cfg.root)
        | some rel =>
          match get_file_content cfg fs rel with
          | some fd =>
            Except.ok (Response.mk idv (some (readResultJson u fd.content)) none)
          | none =>
            Except.ok (Response.mk idv none
              (some (ErrObj.mk (-32602) (lit "Resource not found: " ++ u))))
      else
        Except.ok (Response.mk idv none
          (some (ErrObj.mk (-32602) (lit "Resource not found: " ++ u))))) := by
  unfold readBranch
  rw [hu]
  rfl

/-- Reading the file uri of a member regular file under the root that is
neither ignored nor non-text answers with the file's read_file_content. -/
lemma handle_read_eq (cfg : Config) (fs : FS) (e : FSEntry) (d : FileData)
    (idv : Json) (hwf : fsWF fs = true) (he : e ∈ fs.entries)
    (hd : e.data = some d) (hpre : cfg.root <+: e.path)
    (hig : should_ignore_file e.path = false)
    (htx : is_text_file cfg.guessMime e.path = true) :
    handle_request cfg fs (readReq (lit "file://" ++ pathStr e.path) idv) =
      Except.ok (Response.mk idv
        (some (readResultJson (lit "file://" ++ pathStr e.path)
          (read_file_content cfg fs e.path))) none) := by
  apply handle_request_ok
  rw [dispatch_readReq,
    readBranch_uriStr cfg fs (Json.obj [ (lit "uri",
      Json.str (lit "file://" ++ pathStr e.path))])
      (lit "file://" ++ pathStr e.path) idv rfl]
  have hprefix7 : (lit "file://").isPrefixOf (lit "file://" ++ pathStr e.path) = true :=
    List.isPrefixOf_iff_prefix.mpr (List.prefix_append _ _)
  have hdrop : (lit "file://" ++ pathStr e.path).drop 7 = pathStr e.path := by
    rw [show (7 : Nat) = (lit "file://").length from rfl]
    exact List.drop_left _ _
  rw [hprefix7, if_pos rfl, hdrop, parsePath_pathStr e.path (fsWF_good hwf he)]
  have hrel : relative_toP (PyPath.mk true e.path) (PyPath.mk true cfg.root) =
      some (e.path.drop cfg.root.length) := by
    unfold relative_toP
    rw [if_pos ⟨rfl, hpre⟩]
  simp only [hrel, get_file_content_of_entry cfg fs e d hwf he hd hpre hig htx]

/-- Every leaf of the read branch is a raise or an envelope that echoes the
id and carries exactly one of result and error. -/
lemma readBranch_shape (cfg : Config) (fs : FS) (params : Json) (rid : Json) :
    (∃ r, readBranch cfg fs params rid = Except.ok r ∧ r.id = rid ∧ respOneOf r) ∨
      (∃ msg, readBranch cfg fs params rid = Except.error msg) := by
  unfold readBranch
  cases hg : pyGetD params (lit "uri") (Json.str []) with
  | error e => exact Or.inr ⟨e, rfl⟩
  | ok v =>
    cases v with
    | str u =>
      dsimp only
      by_cases hpre : (lit "file://").isPrefixOf u
      · rw [if_pos hpre]
        cases hrel : relative_toP (parsePath (u.drop 7)) (PyPath.mk true cfg.root) with
        | none => exact Or.inr ⟨_, rfl⟩
        | some rel =>
          dsimp only
          cases hgc : get_file_content cfg fs rel with
          | some fd =>
            dsimp only
            exact Or.inl ⟨_, rfl, rfl, Or.inl ⟨rfl, rfl⟩⟩
          | none =>
            dsimp only
            exact Or.inl ⟨_, rfl, rfl, Or.inr ⟨rfl, rfl⟩⟩
      · rw [if_neg hpre]
        exact Or.inl ⟨_, rfl, rfl, Or.inr ⟨rfl, rfl⟩⟩
    | null => exact Or.inr ⟨_, rfl⟩
    | bool b => exact Or.inr ⟨_, rfl⟩
    | num n => exact Or.inr ⟨_, rfl⟩
    | arr xs => exact Or.inr ⟨_, rfl⟩
    | obj kvs => exact Or.inr ⟨_, rfl⟩

/-- Every leaf of the method table is a raise or an envelope that echoes the
id and carries exactly one of result and error. -/
lemma dispatchCore_shape (cfg : Config) (fs : FS) (method params rid : Json) :
    (∃ r, dispatchCore cfg fs method params rid = Except.ok r ∧ r.id = rid ∧
        respOneOf r) ∨
      (∃ msg, dispatchCore cfg fs method params rid = Except.error msg) := by
  unfold dispatchCore
  cases method with
  | str m =>
    dsimp only
    by_cases h1 : m = lit "initialize"
    · rw [if_pos h1]
      exact Or.inl ⟨_, rfl, rfl, Or.inl ⟨rfl, rfl⟩⟩
    · rw [if_neg h1]
      by_cases h2 : m = lit "resources/list"
      · rw [if_pos h2]
        exact Or.inl ⟨_, rfl, rfl, Or.inl ⟨rfl, rfl⟩⟩
      · rw [if_neg h2]
        by_cases h3 : m = lit "resources/read"
        · rw [if_pos h3]
          exact readBranch_shape cfg fs params rid
        · rw [if_neg h3]
          exact Or.inl ⟨_, rfl, rfl, Or.inr ⟨rfl, rfl⟩⟩
  | null => exact Or.inl ⟨_, rfl, rfl, Or.inr ⟨rfl, rfl⟩⟩
  | bool b => exact Or.inl ⟨_, rfl, rfl, Or.inr ⟨rfl, rfl⟩⟩
  | num n => exact Or.inl ⟨_, rfl, rfl, Or.inr ⟨rfl, rfl⟩⟩
  | arr xs => exact Or.inl ⟨_, rfl, rfl, Or.inr ⟨rfl, rfl⟩⟩
  | obj kvs => exact Or.inl ⟨_, rfl, rfl, Or.inr ⟨rfl, rfl⟩⟩

/-- The descriptor get_file_info builds for a member regular file under the
root. -/
lemma get_file_info_of_entry (cfg : Config) (fs : FS) (e : FSEntry)
    (d : FileData) (hwf : fsWF fs = true) (he : e ∈ fs.entries)
    (hd : e.data = some d) (hpre : cfg.root <+: e.path) :
    get_file_info cfg fs e.path = some (FileInfo.mk
      (relStr (e.path.drop cfg.root.length)) (pathStr e.path) d.bytes.length
      d.mtime (pySuffix (lastComp e.path))
      (is_text_file cfg.guessMime e.path)) := by
  unfold get_file_info
  rw [fsStat_of_mem hwf he hd]
  unfold relComps
  rw [if_pos hpre]

/-- An entry strictly below the root occurs in the rglob enumeration. -/
lemma mem_rglob (fs : FS) (e : FSEntry) (root : List Str)
    (he : e ∈ fs.entries) (hpre : root <+: e.path) (hne : e.path ≠ root) :
    e ∈ rglob fs root := by
  unfold rglob
  rw [List.mem_filter]
  refine ⟨he, ?_⟩
  rw [Bool.and_eq_true]
  exact ⟨decide_eq_true hpre, decide_eq_true hne⟩

/-- The rglob enumeration is no longer than the entry list. -/
lemma rglob_length_le (fs : FS) (root : List Str) :
    (rglob fs root).length ≤ fs.entries.length := by
  unfold rglob
  exact List.length_filter_le _ _

/-- C1, amended: a resources/read request whose uri starts with file:// but
whose path cannot be computed as relative to root_path is answered with the
internal-error envelope -32603 carrying the ValueError text of the failed
lexical relative-path computation, the request id echoed; the dispatcher does
not return -32602 there and does not propagate the exception. -/
theorem C1_thm (cfg : Config) (fs : FS) (fields : List (Str × Json))
    (pf : List (Str × Json)) (u : Str)
    (hm : jLookup fields (lit "method") = Json.str (lit "resources/read"))
    (hp : jLookupD fields (lit "params") (Json.obj []) = Json.obj pf)
    (hu : jLookupD pf (lit "uri") (Json.str []) = Json.str u)
    (hpre : (lit "file://").isPrefixOf u = true)
    (hrel : relative_toP (parsePath (u.drop 7)) (PyPath.mk true cfg.root) = none) :
    handle_request cfg fs (Json.obj fields) =
      Except.ok (Response.mk (jLookup fields (lit "id")) none
        (some (ErrObj.mk (-32603) (lit "Internal error: " ++
          valueErrorMsg (parsePath (u.drop 7)) cfg.root)))) := by
  have hdisp : dispatch cfg fs (Json.obj fields) =
      Except.error (valueErrorMsg (parsePath (u.drop 7)) cfg.root) := by
    rw [dispatch_obj, hm]
    unfold dispatchCore
    dsimp only
    rw [if_neg (by decide), if_neg (by decide), if_pos rfl,
      readBranch_uriStr cfg fs (jLookupD fields (lit "params") (Json.obj []))
        u (jLookup fields (lit "id")) (by rw [hp, pyGetD_obj, hu]),
      hpre, if_pos rfl, hrel]
  unfold handle_request
  rw [hdisp]
  rfl

/-- C1 witness: a concrete resources/read request for file:///out/a.txt, at
root /r, is answered with the -32603 envelope the amended claim describes. -/
theorem C1_witness :
    relative_toP (parsePath ((lit "file:///out/a.txt").drop 7))
        (PyPath.mk true [ lit "r"]) = none ∧
    handle_request (Config.mk [ lit "r"] 1048576 (fun _ => none)) (FS.mk [])
        (Json.obj
          [ (lit "method", Json.str (lit "resources/read")),
            (lit "params", Json.obj
              [ (lit "uri", Json.str (lit "file:///out/a.txt")) ]),
            (lit "id", Json.num 7) ]) =
      Except.ok (Response.mk
        (jLookup
          [ (lit "method", Json.str (lit "resources/read")),
            (lit "params", Json.obj
              [ (lit "uri", Json.str (lit "file:///out/a.txt")) ]),
            (lit "id", Json.num 7) ] (lit "id")) none
        (some (ErrObj.mk (-32603) (lit "Internal error: " ++
          valueErrorMsg (parsePath ((lit "file:///out/a.txt").drop 7))
            [ lit "r"])))) :=
  ⟨by decide,
    C1_thm (Config.mk [ lit "r"] 1048576 (fun _ => none)) (FS.mk []) _ _
      (lit "file:///out/a.txt") rfl rfl rfl (by decide) (by decide)⟩

/-- C1 counterexample: at that same concrete request the answered error code
is -32603, which is not the -32602 the claim states. -/
theorem C1_counterexample :
    respErrCode (handle_request (Config.mk [ lit "r"] 1048576 (fun _ => none))
      (FS.mk [])
      (Json.obj
        [ (lit "method", Json.str (lit "resources/read")),
          (lit "params", Json.obj
            [ (lit "uri", Json.str (lit "file:///out/a.txt")) ]),
          (lit "id", Json.num 7) ])) = some (-32603) ∧
    some (-32603 : Int) ≠ some (-32602 : Int) :=
  ⟨rfl, by decide⟩

/-- C2: with root /r and a regular file /s/b.txt outside the root, the
resources/read request for uri file:///r/../s/b.txt is served successfully
with the outside file's content, although the relative path the server
computed re-joins and resolves to a location outside the root, violating the
claimed invariant. -/
theorem C2_thm :
    handle_request (Config.mk [ lit "r"] 1048576 (fun _ => none))
        (FS.mk
          [ FSEntry.mk [ lit "r"] none,
            FSEntry.mk [ lit "s"] none,
            FSEntry.mk [ lit "s", lit "b.txt"]
              (some (FileData.mk [115, 33] 0)) ])
        (readReq (lit "file:///r/../s/b.txt") (Json.num 1)) =
      Except.ok (Response.mk (Json.num 1)
        (some (readResultJson (lit "file:///r/../s/b.txt") (lit "s!")))
        none) ∧
    resolve ([ lit "r"] ++ [ lit "..", lit "s", lit "b.txt"]) =
      [ lit "s", lit "b.txt"] ∧
    ¬ [ lit "r"] <+: [ lit "s", lit "b.txt"] :=
  ⟨rfl, rfl, by decide⟩

/-- C3: a scan with cap N returns at most N descriptors, each produced by
get_file_info from a member regular file that is neither ignored nor
non-text; the bare list return carries no truncation indicator. -/
theorem C3_thm (cfg : Config) (fs : FS) (maxF : Nat) :
    (scan_directory cfg fs maxF).length ≤ maxF ∧
    ∀ fi ∈ scan_directory cfg fs maxF, ∃ e, e ∈ fs.entries ∧
      e.data.isSome = true ∧ should_ignore_file e.path = false ∧
      is_text_file cfg.guessMime e.path = true ∧
      get_file_info cfg fs e.path = some fi := by
  constructor
  · exact scanFrom_length cfg fs (rglob fs cfg.root) maxF [] (Nat.zero_le _)
  · intro fi hfi
    rcases scanFrom_mem cfg fs (rglob fs cfg.root) maxF [] fi hfi with
      h0 | ⟨e, he, hp⟩
    · exact absurd h0 (List.not_mem_nil fi)
    · exact ⟨e, List.mem_of_mem_filter he, hp⟩

/-- C3 witness: on a one-file tree the scan under cap 5 stays within the cap
and the returned descriptor traces back to its regular, kept, text file. -/
theorem C3_witness :
    (scan_directory (Config.mk [ lit "r"] 1048576 (fun _ => none))
        (FS.mk [ FSEntry.mk [ lit "r", lit "a.txt"]
          (some (FileData.mk [104] 0)) ]) 5).length ≤ 5 ∧
    ∃ e, e ∈ (FS.mk [ FSEntry.mk [ lit "r", lit "a.txt"]
        (some (FileData.mk [104] 0)) ]).entries ∧
      e.data.isSome = true ∧ should_ignore_file e.path = false ∧
      is_text_file (Config.mk [ lit "r"] 1048576 (fun _ => none)).guessMime
        e.path = true ∧
      get_file_info (Config.mk [ lit "r"] 1048576 (fun _ => none))
        (FS.mk [ FSEntry.mk [ lit "r", lit "a.txt"]
          (some (FileData.mk [104] 0)) ]) e.path =
        some (FileInfo.mk (lit "a.txt") (lit "/r/a.txt") 1 0 (lit ".txt") true) :=
  ⟨(C3_thm (Config.mk [ lit "r"] 1048576 (fun _ => none))
      (FS.mk [ FSEntry.mk [ lit "r", lit "a.txt"]
        (some (FileData.mk [104] 0)) ]) 5).1,
    (C3_thm (Config.mk [ lit "r"] 1048576 (fun _ => none))
      (FS.mk [ FSEntry.mk [ lit "r", lit "a.txt"]
        (some (FileData.mk [104] 0)) ]) 5).2
      (FileInfo.mk (lit "a.txt") (lit "/r/a.txt") 1 0 (lit ".txt") true)
      (by decide)⟩

/-- C4, amended: a file that passes the checks and fits in max_file_size is
read as its bytes decoded with the utf-8 ignore handler and passed through
the text-mode universal-newline translation, so reading is total; a byte
that cannot be decoded is dropped from the returned string, not replaced. -/
theorem C4_thm (cfg : Config) (fs : FS) (p : List Str) (d : FileData)
    (hstat : fsStat fs p = some d)
    (hsz : d.bytes.length ≤ cfg.max_file_size) :
    read_file_content cfg fs p =
      (univNewlines (utf8DecodeIgnore d.bytes)).map Char.ofNat ∧
    ∀ l : List Nat, utf8DecodeIgnore (255 :: l) = utf8DecodeIgnore l := by
  constructor
  · unfold read_file_content
    simp only [hstat]
    rw [if_neg (by omega)]
  · exact utf8_drop255

/-- C4 witness: a two-byte ASCII file under a ten-byte ceiling reads as its
decoded bytes. -/
theorem C4_witness :
    fsStat (FS.mk [ FSEntry.mk [ lit "f.md"]
        (some (FileData.mk [104, 105] 3)) ]) [ lit "f.md"] =
      some (FileData.mk [104, 105] 3) ∧
    (read_file_content (Config.mk [] 10 (fun _ => none))
        (FS.mk [ FSEntry.mk [ lit "f.md"] (some (FileData.mk [104, 105] 3)) ])
        [ lit "f.md"] =
        (univNewlines (utf8DecodeIgnore [104, 105])).map Char.ofNat ∧
      ∀ l : List Nat, utf8DecodeIgnore (255 :: l) = utf8DecodeIgnore l) :=
  ⟨rfl,
    C4_thm (Config.mk [] 10 (fun _ => none))
      (FS.mk [ FSEntry.mk [ lit "f.md"] (some (FileData.mk [104, 105] 3)) ])
      [ lit "f.md"] (FileData.mk [104, 105] 3) rfl (by decide)⟩

/-- C4 counterexample: a one-byte file holding the undecodable byte 255 reads
as the empty string, not as a string holding the replacement character 65533
that replacing would produce. -/
theorem C4_counterexample :
    read_file_content (Config.mk [] 10 (fun _ => none))
        (FS.mk [ FSEntry.mk [ lit "f.txt"] (some (FileData.mk [255] 0)) ])
        [ lit "f.txt"] = [] ∧
    utf8DecodeIgnore [255] = [] ∧
    ([] : Str) ≠ [Char.ofNat 65533] :=
  ⟨rfl, rfl, by decide⟩

/-- C5: every object request is answered, never raised on, with an envelope
that carries exactly one of result and error and echoes the request id, null
when the request has none; this covers the success, -32601, -32602 and
-32603 envelopes alike. -/
theorem C5_thm (cfg : Config) (fs : FS) (fields : List (Str × Json)) :
    ∃ r, handle_request cfg fs (Json.obj fields) = Except.ok r ∧
      respOneOf r ∧ r.id = jLookup fields (lit "id") := by
  rcases dispatchCore_shape cfg fs (jLookup fields (lit "method"))
      (jLookupD fields (lit "params") (Json.obj []))
      (jLookup fields (lit "id")) with ⟨r, hr, hid, hone⟩ | ⟨msg, hmsg⟩
  · refine ⟨r, ?_, hone, hid⟩
    apply handle_request_ok
    rw [dispatch_obj]
    exact hr
  · refine ⟨Response.mk (jLookup fields (lit "id")) none
      (some (ErrObj.mk (-32603) (lit "Internal error: " ++ msg))), ?_,
      Or.inr ⟨rfl, rfl⟩, rfl⟩
    unfold handle_request
    rw [dispatch_obj, hmsg]
    rfl

/-- C6: a file that passes the checks but exceeds max_file_size is served as
a structurally successful result whose text is the short placeholder holding
the literal byte count, not an error envelope. -/
theorem C6_thm (cfg : Config) (fs : FS) (e : FSEntry) (d : FileData)
    (idv : Json) (hwf : fsWF fs = true) (he : e ∈ fs.entries)
    (hd : e.data = some d) (hpre : cfg.root <+: e.path)
    (hig : should_ignore_file e.path = false)
    (htx : is_text_file cfg.guessMime e.path = true)
    (hsz : d.bytes.length > cfg.max_file_size) :
    handle_request cfg fs (readReq (lit "file://" ++ pathStr e.path) idv) =
      Except.ok (Response.mk idv
        (some (readResultJson (lit "file://" ++ pathStr e.path)
          (lit "[File too large: " ++ natToStr d.bytes.length ++
            lit " bytes]"))) none) := by
  have h := handle_read_eq cfg fs e d idv hwf he hd hpre hig htx
  have hrd : read_file_content cfg fs e.path =
      lit "[File too large: " ++ natToStr d.bytes.length ++ lit " bytes]" := by
    unfold read_file_content
    simp only [fsStat_of_mem hwf he hd]
    rw [if_pos hsz]
  rw [hrd] at h
  exact h

/-- C6 witness: a two-byte file under a one-byte ceiling is served with the
placeholder text naming two bytes. -/
theorem C6_witness :
    (2 : Nat) > (Config.mk [ lit "r"] 1 (fun _ => none)).max_file_size ∧
    handle_request (Config.mk [ lit "r"] 1 (fun _ => none))
        (FS.mk [ FSEntry.mk [ lit "r", lit "big.txt"]
          (some (FileData.mk [104, 105] 0)) ])
        (readReq (lit "file://" ++ pathStr [ lit "r", lit "big.txt"])
          (Json.num 2)) =
      Except.ok (Response.mk (Json.num 2)
        (some (readResultJson (lit "file://" ++ pathStr [ lit "r", lit "big.txt"])
          (lit "[File too large: " ++ natToStr 2 ++ lit " bytes]"))) none) :=
  ⟨by decide,
    C6_thm (Config.mk [ lit "r"] 1 (fun _ => none))
      (FS.mk [ FSEntry.mk [ lit "r", lit "big.txt"]
        (some (FileData.mk [104, 105] 0)) ])
      (FSEntry.mk [ lit "r", lit "big.txt"] (some (FileData.mk [104, 105] 0)))
      (FileData.mk [104, 105] 0) (Json.num 2) (by decide) (by decide) rfl
      (by decide) (by decide) (by decide) (by decide)⟩

/-- C7, amended: a small ASCII text file under the root that passes every
gate and holds no carriage return shows up in the scan with its relative
path as name-source and its printed absolute path, resources/list answers
with the mapped scan including its entry, and resources/read on the file uri
built from that same absolute path returns exactly the file's content; for a
file holding carriage returns the text-mode read translates them to line
feeds, so only the newline-translated content comes back. -/
theorem C7_thm (cfg : Config) (fs : FS) (e : FSEntry) (d : FileData)
    (idv : Json) (hwf : fsWF fs = true) (he : e ∈ fs.entries)
    (hd : e.data = some d) (hpre : cfg.root <+: e.path)
    (hne : e.path ≠ cfg.root) (hig : should_ignore_file e.path = false)
    (htx : is_text_file cfg.guessMime e.path = true)
    (hsz : d.bytes.length ≤ cfg.max_file_size)
    (hascii : ∀ b ∈ d.bytes, b < 128)
    (hnocr : ∀ b ∈ d.bytes, b ≠ 13)
    (hsmall : fs.entries.length ≤ 1000) :
    ∃ fi, fi ∈ scan_directory cfg fs 1000 ∧
      fi.path = relStr (e.path.drop cfg.root.length) ∧
      fi.absolute_path = pathStr e.path ∧
      handle_request cfg fs (listReq idv) =
        Except.ok (Response.mk idv
          (some (Json.obj [ (lit "resources", Json.arr
            ((scan_directory cfg fs 1000).map resourceEntry)) ])) none) ∧
      resourceEntry fi ∈ (scan_directory cfg fs 1000).map resourceEntry ∧
      handle_request cfg fs (readReq (lit "file://" ++ fi.absolute_path) idv) =
        Except.ok (Response.mk idv
          (some (readResultJson (lit "file://" ++ fi.absolute_path)
            (d.bytes.map Char.ofNat))) none) := by
  have hgfi := get_file_info_of_entry cfg fs e d hwf he hd hpre
  have hmem : FileInfo.mk (relStr (e.path.drop cfg.root.length))
      (pathStr e.path) d.bytes.length d.mtime (pySuffix (lastComp e.path))
      (is_text_file cfg.guessMime e.path) ∈ scan_directory cfg fs 1000 := by
    apply scanFrom_complete cfg fs (rglob fs cfg.root) 1000 [] e
    · simpa using le_trans (rglob_length_le fs cfg.root) hsmall
    · exact mem_rglob fs e cfg.root he hpre hne
    · rw [hd]; rfl
    · exact hig
    · exact htx
    · exact hgfi
  have hrd : read_file_content cfg fs e.path = d.bytes.map Char.ofNat := by
    unfold read_file_content
    simp only [fsStat_of_mem hwf he hd]
    rw [if_neg (by omega), utf8_ascii hascii, univNewlines_no_cr d.bytes hnocr]
  have hread := handle_read_eq cfg fs e d idv hwf he hd hpre hig htx
  rw [hrd] at hread
  exact ⟨_, hmem, rfl, rfl,
    handle_request_ok _ _ _ _ (dispatch_listReq cfg fs idv),
    List.mem_map_of_mem resourceEntry hmem, hread⟩

/-- C7 witness: a two-byte ASCII file /r/a.txt is listed and read back
exactly. -/
theorem C7_witness :
    fsWF (FS.mk [ FSEntry.mk [ lit "r", lit "a.txt"]
        (some (FileData.mk [104, 105] 0)) ]) = true ∧
    ∃ fi, fi ∈ scan_directory (Config.mk [ lit "r"] 1048576 (fun _ => none))
        (FS.mk [ FSEntry.mk [ lit "r", lit "a.txt"]
          (some (FileData.mk [104, 105] 0)) ]) 1000 ∧
      fi.path = relStr ([ lit "r", lit "a.txt"].drop
        (Config.mk [ lit "r"] 1048576 (fun _ => none)).root.length) ∧
      fi.absolute_path = pathStr [ lit "r", lit "a.txt"] ∧
      handle_request (Config.mk [ lit "r"] 1048576 (fun _ => none))
          (FS.mk [ FSEntry.mk [ lit "r", lit "a.txt"]
            (some (FileData.mk [104, 105] 0)) ]) (listReq (Json.num 4)) =
        Except.ok (Response.mk (Json.num 4)
          (some (Json.obj [ (lit "resources", Json.arr
            ((scan_directory (Config.mk [ lit "r"] 1048576 (fun _ => none))
              (FS.mk [ FSEntry.mk [ lit "r", lit "a.txt"]
                (some (FileData.mk [104, 105] 0)) ]) 1000).map
              resourceEntry)) ])) none) ∧
      resourceEntry fi ∈ (scan_directory
        (Config.mk [ lit "r"] 1048576 (fun _ => none))
        (FS.mk [ FSEntry.mk [ lit "r", lit "a.txt"]
          (some (FileData.mk [104, 105] 0)) ]) 1000).map resourceEntry ∧
      handle_request (Config.mk [ lit "r"] 1048576 (fun _ => none))
          (FS.mk [ FSEntry.mk [ lit "r", lit "a.txt"]
            (some (FileData.mk [104, 105] 0)) ])
          (readReq (lit "file://" ++ fi.absolute_path) (Json.num 4)) =
        Except.ok (Response.mk (Json.num 4)
          (some (readResultJson (lit "file://" ++ fi.absolute_path)
            ([104, 105].map Char.ofNat))) none) :=
  ⟨by decide,
    C7_thm (Config.mk [ lit "r"] 1048576 (fun _ => none))
      (FS.mk [ FSEntry.mk [ lit "r", lit "a.txt"]
        (some (FileData.mk [104, 105] 0)) ])
      (FSEntry.mk [ lit "r", lit "a.txt"] (some (FileData.mk [104, 105] 0)))
      (FileData.mk [104, 105] 0) (Json.num 4) (by decide) (by decide) rfl
      (by decide) (by decide) (by decide) (by decide) (by decide) (by decide)
      (by decide) (by decide)⟩

/-- C7 counterexample: a four-byte text file h CR LF i under the root is
served through resources/read as the three-character translated text h LF i,
which is not the file's exact content; the byte-exact round-trip the claim
states fails on carriage-return-bearing files. -/
theorem C7_counterexample :
    handle_request (Config.mk [ lit "r"] 1048576 (fun _ => none))
        (FS.mk [ FSEntry.mk [ lit "r", lit "a.txt"]
          (some (FileData.mk [104, 13, 10, 105] 0)) ])
        (readReq (lit "file:///r/a.txt") (Json.num 1)) =
      Except.ok (Response.mk (Json.num 1)
        (some (readResultJson (lit "file:///r/a.txt")
          ([104, 10, 105].map Char.ofNat))) none) ∧
    ([104, 10, 105].map Char.ofNat : Str) ≠ [104, 13, 10, 105].map Char.ofNat :=
  ⟨rfl, by decide⟩

/-- C8: an allow-listed extension, compared lowercased, makes is_text_file
true for every MIME lookup whatsoever, and only a non-allow-listed extension
hands the decision to the MIME lookup. -/
theorem C8_thm (g g2 : Str → Option Str) (p : List Str) :
    (allowed_extensions.contains (lowerStr (pySuffix (lastComp p))) = true →
      is_text_file g p = true ∧ is_text_file g p = is_text_file g2 p) ∧
    (allowed_extensions.contains (lowerStr (pySuffix (lastComp p))) = false →
      is_text_file g p = mimeIsText g p) := by
  constructor
  · intro h
    constructor
    · unfold is_text_file
      rw [if_pos h]
    · unfold is_text_file
      rw [if_pos h, if_pos h]
  · intro h
    unfold is_text_file
    rw [if_neg (by rw [h]; decide)]

/-- C8 witness: the uppercase extension .PY is allow-listed after lowering,
and is_text_file is true even under a MIME lookup that answers a non-text
type. -/
theorem C8_witness :
    allowed_extensions.contains
      (lowerStr (pySuffix (lastComp [ lit "r", lit "A.PY"]))) = true ∧
    is_text_file (fun _ => some (lit "application/pdf"))
      [ lit "r", lit "A.PY"] = true :=
  ⟨by decide,
    ((C8_thm (fun _ => some (lit "application/pdf")) (fun _ => none)
      [ lit "r", lit "A.PY"]).1 (by decide)).1⟩

/-- C9: a parsed input line that is valid JSON but not an object makes the
dispatch raise, the -32603 handler raise again on re-reading the id, and the
stdio loop emit no response for it and terminate without serving the rest. -/
theorem C9_thm (cfg : Config) (fs : FS) (j : Json)
    (rest : List (Option Json)) (hj : jsonIsObj j = false) :
    ∃ msg, dispatch cfg fs j = Except.error msg ∧
      handle_request cfg fs j = Except.error msg ∧
      run_stdio cfg fs (some j :: rest) = ([], LoopEnd.serverError msg) := by
  cases j with
  | obj fields => exact absurd hj (by simp [jsonIsObj])
  | null => exact ⟨attrMsg Json.null, rfl, rfl, rfl⟩
  | bool b => exact ⟨attrMsg (Json.bool b), rfl, rfl, rfl⟩
  | num n => exact ⟨attrMsg (Json.num n), rfl, rfl, rfl⟩
  | str s => exact ⟨attrMsg (Json.str s), rfl, rfl, rfl⟩
  | arr xs => exact ⟨attrMsg (Json.arr xs), rfl, rfl, rfl⟩

/-- C9 witness: the number line 3 kills the loop before a following
well-formed object request line gets served. -/
theorem C9_witness :
    jsonIsObj (Json.num 3) = false ∧
    ∃ msg, dispatch (Config.mk [ lit "r"] 10 (fun _ => none)) (FS.mk [])
        (Json.num 3) = Except.error msg ∧
      handle_request (Config.mk [ lit "r"] 10 (fun _ => none)) (FS.mk [])
        (Json.num 3) = Except.error msg ∧
      run_stdio (Config.mk [ lit "r"] 10 (fun _ => none)) (FS.mk [])
        (some (Json.num 3) :: [some (Json.obj [])]) =
        ([], LoopEnd.serverError msg) :=
  ⟨rfl, C9_thm (Config.mk [ lit "r"] 10 (fun _ => none)) (FS.mk [])
    (Json.num 3) [some (Json.obj [])] rfl⟩

/-- C10: when no ignore pattern glob-matches the full path string or the base
name, should_ignore_file is false even if a parent directory component would
match, and such a file, if textual, is readable and, on a small tree,
listed. -/
theorem C10_thm (cfg : Config) (fs : FS) (e : FSEntry) (d : FileData)
    (hno : ∀ pat ∈ ignored_patterns,
      globMatch pat (pathStr e.path) = false ∧
      globMatch pat (lastComp e.path) = false)
    (hwf : fsWF fs = true) (he : e ∈ fs.entries) (hd : e.data = some d)
    (hpre : cfg.root <+: e.path) (hne : e.path ≠ cfg.root)
    (htx : is_text_file cfg.guessMime e.path = true) :
    should_ignore_file e.path = false ∧
    (∃ c, get_file_content cfg fs (e.path.drop cfg.root.length) = some c) ∧
    (fs.entries.length ≤ 1000 →
      ∃ fi, fi ∈ scan_directory cfg fs 1000 ∧
        fi.absolute_path = pathStr e.path) := by
  have hig : should_ignore_file e.path = false := by
    unfold should_ignore_file
    rw [Bool.eq_false_iff]
    intro hcontra
    rw [List.any_eq_true] at hcontra
    obtain ⟨pat, hmem, hp⟩ := hcontra
    rw [Bool.or_eq_true] at hp
    rcases hp with h1 | h1
    · rw [(hno pat hmem).1] at h1; exact absurd h1 (by decide)
    · rw [(hno pat hmem).2] at h1; exact absurd h1 (by decide)
  refine ⟨hig, ⟨_, get_file_content_of_entry cfg fs e d hwf he hd hpre hig htx⟩, ?_⟩
  intro hsmall
  have hmem : FileInfo.mk (relStr (e.path.drop cfg.root.length))
      (pathStr e.path) d.bytes.length d.mtime (pySuffix (lastComp e.path))
      (is_text_file cfg.guessMime e.path) ∈ scan_directory cfg fs 1000 := by
    apply scanFrom_complete cfg fs (rglob fs cfg.root) 1000 [] e
    · simpa using le_trans (rglob_length_le fs cfg.root) hsmall
    · exact mem_rglob fs e cfg.root he hpre hne
    · rw [hd]; rfl
    · exact hig
    · exact htx
    · exact get_file_info_of_entry cfg fs e d hwf he hd hpre
  exact ⟨_, hmem, rfl⟩

/-- C10 witness: the file /r/node_modules/pkg/index.js sits under a directory
whose name is itself an ignore pattern, yet no pattern matches its full path
string or its base name, so it is kept, readable and listed. -/
theorem C10_witness :
    (∀ pat ∈ ignored_patterns,
      globMatch pat (pathStr [ lit "r", lit "node_modules", lit "pkg",
        lit "index.js"]) = false ∧
      globMatch pat (lastComp [ lit "r", lit "node_modules", lit "pkg",
        lit "index.js"]) = false) ∧
    (should_ignore_file [ lit "r", lit "node_modules", lit "pkg",
        lit "index.js"] = false ∧
      (∃ c, get_file_content (Config.mk [ lit "r"] 1048576 (fun _ => none))
        (FS.mk [ FSEntry.mk [ lit "r", lit "node_modules", lit "pkg",
          lit "index.js"] (some (FileData.mk [104] 0)) ])
        ([ lit "r", lit "node_modules", lit "pkg", lit "index.js"].drop
          (Config.mk [ lit "r"] 1048576 (fun _ => none)).root.length) =
          some c) ∧
      ((FS.mk [ FSEntry.mk [ lit "r", lit "node_modules", lit "pkg",
          lit "index.js"] (some (FileData.mk [104] 0)) ]).entries.length ≤ 1000 →
        ∃ fi, fi ∈ scan_directory (Config.mk [ lit "r"] 1048576 (fun _ => none))
            (FS.mk [ FSEntry.mk [ lit "r", lit "node_modules", lit "pkg",
              lit "index.js"] (some (FileData.mk [104] 0)) ]) 1000 ∧
          fi.absolute_path = pathStr [ lit "r", lit "node_modules",
            lit "pkg", lit "index.js"])) :=
  ⟨by decide,
    C10_thm (Config.mk [ lit "r"] 1048576 (fun _ => none))
      (FS.mk [ FSEntry.mk [ lit "r", lit "node_modules", lit "pkg",
        lit "index.js"] (some (FileData.mk [104] 0)) ])
      (FSEntry.mk [ lit "r", lit "node_modules", lit "pkg", lit "index.js"]
        (some (FileData.mk [104] 0)))
      (FileData.mk [104] 0) (by decide) (by decide) (by decide) rfl
      (by decide) (by decide) (by decide)⟩

end MLF
